import Mathlib

/-!
Verification of the equilibrium solver `resolver_estrutura` of
`interface_R0.py` against its specification.

The solver is a pure function from five real parameters to four rounded
reaction scalars and three univariate polynomial expressions (shear `V(x)`,
moment `M(x)` in factored and expanded form).  Real numbers are embedded as
`ℚ`; Python's `/` (which raises `ZeroDivisionError` on a zero denominator,
also for floats) is embedded in the `Except` monad; Python's `round(·, 2)`
(round half to even) is embedded exactly; sympy expressions, which here are
always polynomials of degree at most 2, are embedded as dense coefficient
lists, with `sympy.integrate`/`expand`/`factor` given their mathematical
semantics on that canonical representation.
-/

namespace R0

/-- Error kinds: the Python runtime error actually produced by the solver,
and the `InvalidGeometry` kind that the specification names. -/
inductive PyErr where
  | zeroDivisionError
  | invalidGeometry
  deriving DecidableEq

/-- Python division `a / b`: raises `ZeroDivisionError` when `b = 0`
(Python raises it for float operands too), otherwise the exact quotient. -/
def pydiv (a b : ℚ) : Except PyErr ℚ :=
  if b = 0 then .error .zeroDivisionError else .ok (a / b)

/-- Round to the nearest integer, ties to even (Python's `round`), phrased
on the numerator and denominator so that the kernel can evaluate it; see
`roundHalfEven_eq` for the arithmetic characterization. -/
def roundHalfEven (q : ℚ) : ℤ :=
  if 2 * (q.num % q.den) < (q.den : ℤ) then q.num / q.den
  else if (q.den : ℤ) < 2 * (q.num % q.den) then q.num / q.den + 1
  else if (q.num / q.den) % 2 = 0 then q.num / q.den else q.num / q.den + 1

/-- `roundHalfEven` is floor-based rounding to nearest, ties to even. -/
theorem roundHalfEven_eq (q : ℚ) :
    roundHalfEven q =
      if q - ⌊q⌋ < 1/2 then ⌊q⌋
      else if 1/2 < q - ⌊q⌋ then ⌊q⌋ + 1
      else if ⌊q⌋ % 2 = 0 then ⌊q⌋ else ⌊q⌋ + 1 := by
  have hd0Q : (0 : ℚ) < (q.den : ℚ) := by exact_mod_cast q.den_pos
  have hf : q.num / (q.den : ℤ) = ⌊q⌋ := Rat.floor_def.symm
  have hdr : (q.den : ℤ) * (q.num / (q.den : ℤ)) + q.num % (q.den : ℤ) = q.num :=
    Int.ediv_add_emod q.num (q.den : ℤ)
  have hnum : (q.num : ℚ) = q * (q.den : ℚ) :=
    (div_eq_iff (ne_of_gt hd0Q)).mp (Rat.num_div_den q)
  have hemodQ : ((q.num % (q.den : ℤ) : ℤ) : ℚ) = (q - ⌊q⌋) * (q.den : ℚ) := by
    have hdrQ : ((q.den : ℤ) : ℚ) * ((q.num / (q.den : ℤ) : ℤ) : ℚ) +
        ((q.num % (q.den : ℤ) : ℤ) : ℚ) = (q.num : ℚ) := by exact_mod_cast hdr
    have hfQ : ((q.num / (q.den : ℤ) : ℤ) : ℚ) = ((⌊q⌋ : ℤ) : ℚ) := by exact_mod_cast hf
    rw [hfQ, hnum] at hdrQ
    push_cast at hdrQ ⊢
    linear_combination hdrQ
  have hc1 : 2 * (q.num % (q.den : ℤ)) < (q.den : ℤ) ↔ q - ⌊q⌋ < 1/2 := by
    constructor <;> intro h
    · have h' : (2 : ℚ) * ((q.num % (q.den : ℤ) : ℤ) : ℚ) < (q.den : ℚ) := by
        exact_mod_cast h
      rw [hemodQ] at h'
      nlinarith [hd0Q, h']
    · have h' : (2 : ℚ) * ((q.num % (q.den : ℤ) : ℤ) : ℚ) < (q.den : ℚ) := by
        rw [hemodQ]
        nlinarith [hd0Q, h]
      exact_mod_cast h'
  have hc2 : (q.den : ℤ) < 2 * (q.num % (q.den : ℤ)) ↔ 1/2 < q - ⌊q⌋ := by
    constructor <;> intro h
    · have h' : (q.den : ℚ) < (2 : ℚ) * ((q.num % (q.den : ℤ) : ℤ) : ℚ) := by
        exact_mod_cast h
      rw [hemodQ] at h'
      nlinarith [hd0Q, h']
    · have h' : (q.den : ℚ) < (2 : ℚ) * ((q.num % (q.den : ℤ) : ℤ) : ℚ) := by
        rw [hemodQ]
        nlinarith [hd0Q, h]
      exact_mod_cast h'
  simp only [roundHalfEven, hf]
  by_cases h1 : 2 * (q.num % (q.den : ℤ)) < (q.den : ℤ)
  · rw [if_pos h1, if_pos (hc1.mp h1)]
  · rw [if_neg h1, if_neg (fun h => h1 (hc1.mpr h))]
    by_cases h2 : (q.den : ℤ) < 2 * (q.num % (q.den : ℤ))
    · rw [if_pos h2, if_pos (hc2.mp h2)]
    · rw [if_neg h2, if_neg (fun h => h2 (hc2.mpr h))]

/-- Rounding to the nearest integer moves a value by at most `1/2`. -/
theorem abs_roundHalfEven_sub_le (q : ℚ) : |(roundHalfEven q : ℚ) - q| ≤ 1/2 := by
  rw [roundHalfEven_eq]
  have h0 : ((⌊q⌋ : ℤ) : ℚ) ≤ q := Int.floor_le q
  have h1 : q < ((⌊q⌋ : ℤ) : ℚ) + 1 := Int.lt_floor_add_one q
  split_ifs with hc1 hc2 hc3 <;> rw [abs_le] <;> constructor <;> push_cast <;> linarith

/-- Python's `round(q, 2)`. -/
def pyround2 (q : ℚ) : ℚ := (roundHalfEven (100 * q) : ℚ) / 100

/-- A sympy expression that is a univariate polynomial, represented by its
dense coefficient list (index = degree): the canonical expanded form. -/
abbrev Poly := List ℚ

/-- Evaluate a coefficient list at `x` (Horner scheme). -/
def Poly.eval (p : Poly) (x : ℚ) : ℚ := p.foldr (fun a acc => a + x * acc) 0

def Poly.integAux (n : ℚ) : List ℚ → List ℚ
  | [] => []
  | a :: p => a / n :: Poly.integAux (n + 1) p

/-- `sympy.integrate(p, (x, 0, x))` for a polynomial `p`: the antiderivative
with zero constant term. -/
def Poly.integ (p : Poly) : Poly := 0 :: Poly.integAux 1 p

def Poly.derivAux (n : ℚ) : List ℚ → List ℚ
  | [] => []
  | a :: p => n * a :: Poly.derivAux (n + 1) p

/-- Symbolic derivative `d/dx` of a polynomial. -/
def Poly.deriv (p : Poly) : Poly := Poly.derivAux 1 p.tail

/-- `sympy.expand`: returns an expression symbolically equal to its input;
on the canonical coefficient representation it is the identity. -/
def sympy_expand (p : Poly) : Poly := p

/-- `sympy.factor`: returns an expression symbolically equal to its input;
on the canonical coefficient representation it is the identity. -/
def sympy_factor (p : Poly) : Poly := p

instance {ε α : Type} [DecidableEq ε] [DecidableEq α] : DecidableEq (Except ε α) :=
  fun x y =>
  match x, y with
  | .ok a, .ok b =>
      if h : a = b then .isTrue (by rw [h]) else .isFalse (by simp [h])
  | .error a, .error b =>
      if h : a = b then .isTrue (by rw [h]) else .isFalse (by simp [h])
  | .ok _, .error _ => .isFalse (by simp)
  | .error _, .ok _ => .isFalse (by simp)

/-- The tuple `(Hc, Vb, Vc, N, V_expr, M_factored, M_expanded)` returned by
`resolver_estrutura`. -/
structure Saida where
  Hc : ℚ
  Vb : ℚ
  Vc : ℚ
  N : ℚ
  V_expr : Poly
  M_factored : Poly
  M_expanded : Poly
  deriving DecidableEq

/-- Shallow embedding of `resolver_estrutura` (`interface_R0.py`):
`Hc = Ha - Hd`, `Vb_Vc = -Pbc * L_bc`,
`Vb = (-Pbc * L_bc / 2) - (Hd * h_cd / L_bc)`, `Vc = Vb_Vc - Vb`, `N = Ha`,
`V_expr = Vb + Pbc * x`, `M_integrated = sp.integrate(V_expr, (x, 0, x))`,
`M_expanded = sp.expand(M_integrated)`, `M_factored = sp.factor(M_integrated)`,
returning the four scalars rounded to two decimal places. -/
def resolver_estrutura (Ha Hd Pbc L_bc h_cd : ℚ) : Except PyErr Saida := do
  let Hc := Ha - Hd
  let Vb_Vc := -Pbc * L_bc
  let t1 ← pydiv (-Pbc * L_bc) 2
  let t2 ← pydiv (Hd * h_cd) L_bc
  let Vb := t1 - t2
  let Vc := Vb_Vc - Vb
  let N := Ha
  let V_expr : Poly := [Vb, Pbc]
  let M_integrated := Poly.integ V_expr
  let M_expanded := sympy_expand M_integrated
  let M_factored := sympy_factor M_integrated
  return ⟨pyround2 Hc, pyround2 Vb, pyround2 Vc, pyround2 N,
          V_expr, M_factored, M_expanded⟩

/-- The exact (pre-rounding) value of `Vb` computed by the solver. -/
def VbExact (Hd Pbc L_bc h_cd : ℚ) : ℚ := -Pbc * L_bc / 2 - Hd * h_cd / L_bc

/-- On any input with `L_bc ≠ 0` the solver succeeds, with these values. -/
theorem resolver_ok (Ha Hd Pbc L_bc h_cd : ℚ) (h : L_bc ≠ 0) :
    resolver_estrutura Ha Hd Pbc L_bc h_cd =
      Except.ok ⟨pyround2 (Ha - Hd),
        pyround2 (VbExact Hd Pbc L_bc h_cd),
        pyround2 (-Pbc * L_bc - VbExact Hd Pbc L_bc h_cd),
        pyround2 Ha,
        [VbExact Hd Pbc L_bc h_cd, Pbc],
        [0, VbExact Hd Pbc L_bc h_cd, Pbc / 2],
        [0, VbExact Hd Pbc L_bc h_cd, Pbc / 2]⟩ := by
  norm_num [resolver_estrutura, pydiv, h, VbExact, Poly.integ, Poly.integAux,
    sympy_expand, sympy_factor]
  rfl

/-- Rounding to two decimal places moves a value by at most `1/200`. -/
theorem abs_pyround2_sub_le (q : ℚ) : |pyround2 q - q| ≤ 1/200 := by
  have h := abs_roundHalfEven_sub_le (100 * q)
  have heq : pyround2 q - q = ((roundHalfEven (100 * q) : ℚ) - 100 * q) / 100 := by
    simp only [pyround2]
    ring
  rw [heq, abs_div, show |(100 : ℚ)| = 100 from abs_of_pos (by norm_num)]
  linarith

theorem Poly.eval_nil (x : ℚ) : Poly.eval [] x = 0 := rfl

theorem Poly.eval_cons (a : ℚ) (p : Poly) (x : ℚ) :
    Poly.eval (a :: p) x = a + x * Poly.eval p x := rfl

theorem derivAux_integAux (p : List ℚ) : ∀ n : ℚ, 0 < n →
    Poly.derivAux n (Poly.integAux n p) = p := by
  induction p with
  | nil => intro n _; simp [Poly.derivAux, Poly.integAux]
  | cons a p ih =>
      intro n hn
      have hn' : n ≠ 0 := ne_of_gt hn
      simp only [Poly.integAux, Poly.derivAux]
      rw [ih (n + 1) (by linarith)]
      congr 1
      field_simp

/-- Symbolic differentiation is a left inverse of the zero-based
antiderivative. -/
theorem Poly.deriv_integ (p : Poly) : Poly.deriv (Poly.integ p) = p := by
  simp only [Poly.deriv, Poly.integ, List.tail_cons]
  exact derivAux_integAux p 1 one_pos

/-- The zero-based antiderivative vanishes at `0`. -/
theorem Poly.eval_integ_zero (p : Poly) : Poly.eval (Poly.integ p) 0 = 0 := by
  simp [Poly.integ, Poly.eval_cons]

/-- The solver's output at the spec's reference scenario
`Ha=1, Hd=3, Pbc=-2, L_bc=3, h_cd=1`. -/
def saida_ref : Saida := ⟨-2, 2, 4, 1, [2, -2], [0, 2, -1], [0, 2, -1]⟩

theorem resolver_ref : resolver_estrutura 1 3 (-2) 3 1 = Except.ok saida_ref := by
  rw [resolver_ok 1 3 (-2) 3 1 (by norm_num)]
  norm_num [saida_ref, VbExact, pyround2, roundHalfEven_eq]

/-- C1 (counterexample): at `Ha=1, Hd=3, Pbc=-2, L_bc=2, h_cd=1` the solver
returns `Vb = 0.5`, while the claimed formula `(−Pbc·L_bc/2 − Hd·h_cd)/L_bc`
(the whole numerator divided by `L_bc`) rounds to `−0.5`, so the claim is
false. -/
theorem c1_counterexample :
    (resolver_estrutura 1 3 (-2) 2 1).map Saida.Vb = Except.ok (1/2) ∧
    pyround2 ((-(-2 : ℚ) * 2 / 2 - 3 * 1) / 2) = -(1/2) ∧ ((1 : ℚ)/2) ≠ -(1/2) := by
  refine ⟨?_, ?_, by norm_num⟩
  · rw [resolver_ok 1 3 (-2) 2 1 (by norm_num)]
    norm_num [VbExact, pyround2, roundHalfEven_eq, Except.map]
  · norm_num [pyround2, roundHalfEven_eq]

/-- C1 (amended): for every input with `L_bc ≠ 0` the returned `Vb` is the
rounding of `−Pbc·L_bc/2 − (Hd·h_cd)/L_bc`: only the `Hd·h_cd` moment term is
divided by `L_bc`. -/
theorem c1_Vb_returned (Ha Hd Pbc L_bc h_cd : ℚ) (h : L_bc ≠ 0) :
    (resolver_estrutura Ha Hd Pbc L_bc h_cd).map Saida.Vb =
      Except.ok (pyround2 (-Pbc * L_bc / 2 - Hd * h_cd / L_bc)) := by
  rw [resolver_ok Ha Hd Pbc L_bc h_cd h]
  rfl

/-- Witness for the amended C1 at the reference scenario. -/
theorem c1_Vb_returned_witness :
    (3 : ℚ) ≠ 0 ∧
    (resolver_estrutura 1 3 (-2) 3 1).map Saida.Vb =
      Except.ok (pyround2 (-(-2 : ℚ) * 3 / 2 - 3 * 1 / 3)) :=
  ⟨by norm_num, c1_Vb_returned 1 3 (-2) 3 1 (by norm_num)⟩

/-- C2: the concrete scenario `Ha=1, Hd=3, Pbc=-2, L_bc=3, h_cd=1` yields
`Vb = 2`, `Vc = 4`, `Hc = −2` and `N = 1`. -/
theorem c2_concrete_scenario :
    (resolver_estrutura 1 3 (-2) 3 1).map (fun s => (s.Vb, s.Vc, s.Hc, s.N)) =
      Except.ok (2, 4, -2, 1) := by
  rw [resolver_ok 1 3 (-2) 3 1 (by norm_num)]
  norm_num [VbExact, pyround2, roundHalfEven_eq, Except.map]

/-- C3 (counterexample): called with `L_bc = 0` the solver fails with
`ZeroDivisionError` from the unguarded division `Hd·h_cd / L_bc`, not with
the checked error kind `InvalidGeometry` the claim names. -/
theorem c3_counterexample :
    resolver_estrutura 1 3 (-2) 0 1 = Except.error PyErr.zeroDivisionError ∧
    resolver_estrutura 1 3 (-2) 0 1 ≠ Except.error PyErr.invalidGeometry := by
  have h : resolver_estrutura 1 3 (-2) 0 1 = Except.error PyErr.zeroDivisionError := by
    norm_num [resolver_estrutura, pydiv]
    rfl
  exact ⟨h, by rw [h]; simp⟩

/-- C3 (amended): on every input with `L_bc = 0` the solver raises
`ZeroDivisionError` (an unguarded division, with no explicit pre-check
inside the solver) and returns no numeric result at all. -/
theorem c3_zero_length_raises (Ha Hd Pbc h_cd : ℚ) :
    resolver_estrutura Ha Hd Pbc 0 h_cd = Except.error PyErr.zeroDivisionError := by
  norm_num [resolver_estrutura, pydiv]
  rfl

/-- C4: for every input with `L_bc ≠ 0` the returned `Hc` is the rounding of
`Ha − Hd`. -/
theorem c4_horizontal_equilibrium (Ha Hd Pbc L_bc h_cd : ℚ) (h : L_bc ≠ 0) :
    (resolver_estrutura Ha Hd Pbc L_bc h_cd).map Saida.Hc =
      Except.ok (pyround2 (Ha - Hd)) := by
  rw [resolver_ok Ha Hd Pbc L_bc h_cd h]
  rfl

/-- Witness for C4 at the reference scenario. -/
theorem c4_horizontal_equilibrium_witness :
    (3 : ℚ) ≠ 0 ∧
    (resolver_estrutura 1 3 (-2) 3 1).map Saida.Hc =
      Except.ok (pyround2 ((1 : ℚ) - 3)) :=
  ⟨by norm_num, c4_horizontal_equilibrium 1 3 (-2) 3 1 (by norm_num)⟩

/-- C5 (counterexample): at `Ha=0, Hd=0, Pbc=-1/1000, L_bc=1, h_cd=1` the
rounded outputs satisfy `Vb + Vc = 0`, while `−Pbc·L_bc = 1/1000`, so the
rounded reactions do not sum exactly to the negative of the total load. -/
theorem c5_counterexample :
    (resolver_estrutura 0 0 (-1/1000) 1 1).map (fun s => s.Vb + s.Vc) =
      Except.ok 0 ∧
    -((-1 : ℚ)/1000) * 1 = 1/1000 ∧ ((0 : ℚ) ≠ 1/1000) := by
  refine ⟨?_, by norm_num, by norm_num⟩
  rw [resolver_ok 0 0 (-1/1000) 1 1 (by norm_num)]
  norm_num [VbExact, pyround2, roundHalfEven_eq, Except.map]

/-- C5 (amended): the exact reactions satisfy `Vb + Vc = −Pbc·L_bc` exactly;
after the two-decimal rounding of each reaction the identity holds up to
`1/100`. -/
theorem c5_vertical_sum_bound (Ha Hd Pbc L_bc h_cd : ℚ) (h : L_bc ≠ 0) :
    ∀ s : Saida, resolver_estrutura Ha Hd Pbc L_bc h_cd = Except.ok s →
      VbExact Hd Pbc L_bc h_cd + (-Pbc * L_bc - VbExact Hd Pbc L_bc h_cd) =
        -Pbc * L_bc ∧
      |s.Vb + s.Vc - (-Pbc * L_bc)| ≤ 1/100 := by
  intro s hs
  rw [resolver_ok Ha Hd Pbc L_bc h_cd h] at hs
  injection hs with hs'
  subst hs'
  refine ⟨by ring, ?_⟩
  have h1 := abs_pyround2_sub_le (VbExact Hd Pbc L_bc h_cd)
  have h2 := abs_pyround2_sub_le (-Pbc * L_bc - VbExact Hd Pbc L_bc h_cd)
  rw [abs_le] at h1 h2 ⊢
  dsimp only
  constructor
  · linarith [h1.1, h2.1]
  · linarith [h1.2, h2.2]

/-- Witness for the amended C5 at the reference scenario. -/
theorem c5_vertical_sum_bound_witness :
    VbExact 3 (-2) 3 1 + (-(-2 : ℚ) * 3 - VbExact 3 (-2) 3 1) = -(-2 : ℚ) * 3 ∧
    |saida_ref.Vb + saida_ref.Vc - (-(-2 : ℚ) * 3)| ≤ 1/100 :=
  c5_vertical_sum_bound 1 3 (-2) 3 1 (by norm_num) saida_ref resolver_ref

/-- C6: both returned moment expressions vanish at `0` and their symbolic
derivative is the returned shear expression. -/
theorem c6_moment_integral (Ha Hd Pbc L_bc h_cd : ℚ) (h : L_bc ≠ 0) :
    ∀ s : Saida, resolver_estrutura Ha Hd Pbc L_bc h_cd = Except.ok s →
      Poly.eval s.M_factored 0 = 0 ∧ Poly.eval s.M_expanded 0 = 0 ∧
      Poly.deriv s.M_factored = s.V_expr ∧ Poly.deriv s.M_expanded = s.V_expr := by
  intro s hs
  rw [resolver_ok Ha Hd Pbc L_bc h_cd h] at hs
  injection hs with hs'
  subst hs'
  refine ⟨by norm_num [Poly.eval_cons, Poly.eval_nil], by norm_num [Poly.eval_cons, Poly.eval_nil], ?_, ?_⟩ <;>
    · norm_num [Poly.deriv, Poly.derivAux]
      ring

/-- Witness for C6 at the reference scenario. -/
theorem c6_moment_integral_witness :
    Poly.eval saida_ref.M_factored 0 = 0 ∧ Poly.eval saida_ref.M_expanded 0 = 0 ∧
    Poly.deriv saida_ref.M_factored = saida_ref.V_expr ∧
    Poly.deriv saida_ref.M_expanded = saida_ref.V_expr :=
  c6_moment_integral 1 3 (-2) 3 1 (by norm_num) saida_ref resolver_ref

/-- C7 (counterexample): at `Ha=0, Hd=0, Pbc=-1/1000, L_bc=1, h_cd=1` the
shear expression evaluates at `0` to the exact `1/2000`, while the returned
(rounded) `Vb` is `0`, so `V(0)` is not exactly the returned `Vb`. -/
theorem c7_counterexample :
    (resolver_estrutura 0 0 (-1/1000) 1 1).map
        (fun s => (Poly.eval s.V_expr 0, s.Vb)) =
      Except.ok (1/2000, 0) ∧ ((1 : ℚ)/2000) ≠ 0 := by
  refine ⟨?_, by norm_num⟩
  rw [resolver_ok 0 0 (-1/1000) 1 1 (by norm_num)]
  norm_num [VbExact, pyround2, roundHalfEven_eq, Except.map, Poly.eval_cons, Poly.eval_nil]

/-- C7 (amended): `V(0)` equals the exact pre-rounding `Vb`,
`V(L_bc) = V(0) + Pbc·L_bc` exactly, and the returned `Vb` is the rounding
of `V(0)`. -/
theorem c7_shear_boundary (Ha Hd Pbc L_bc h_cd : ℚ) (h : L_bc ≠ 0) :
    ∀ s : Saida, resolver_estrutura Ha Hd Pbc L_bc h_cd = Except.ok s →
      Poly.eval s.V_expr 0 = VbExact Hd Pbc L_bc h_cd ∧
      Poly.eval s.V_expr L_bc = VbExact Hd Pbc L_bc h_cd + Pbc * L_bc ∧
      s.Vb = pyround2 (Poly.eval s.V_expr 0) := by
  intro s hs
  rw [resolver_ok Ha Hd Pbc L_bc h_cd h] at hs
  injection hs with hs'
  subst hs'
  refine ⟨?_, ?_, ?_⟩ <;> norm_num [Poly.eval_cons, Poly.eval_nil]
  ring

/-- Witness for the amended C7 at the reference scenario. -/
theorem c7_shear_boundary_witness :
    Poly.eval saida_ref.V_expr 0 = VbExact 3 (-2) 3 1 ∧
    Poly.eval saida_ref.V_expr 3 = VbExact 3 (-2) 3 1 + (-2 : ℚ) * 3 ∧
    saida_ref.Vb = pyround2 (Poly.eval saida_ref.V_expr 0) :=
  c7_shear_boundary 1 3 (-2) 3 1 (by norm_num) saida_ref resolver_ref

/-- C8: the four returned reactions are integer multiples of `1/100` (they
are rounded to two decimal places), the shear expression is an affine
polynomial `a + b·x`, and both moment expressions are quadratics
`d·x + e·x²` with zero constant term. -/
theorem c8_output_shape (Ha Hd Pbc L_bc h_cd : ℚ) (h : L_bc ≠ 0) :
    ∀ s : Saida, resolver_estrutura Ha Hd Pbc L_bc h_cd = Except.ok s →
      ((∃ k : ℤ, s.Hc = (k : ℚ)/100) ∧ (∃ k : ℤ, s.Vb = (k : ℚ)/100) ∧
       (∃ k : ℤ, s.Vc = (k : ℚ)/100) ∧ (∃ k : ℤ, s.N = (k : ℚ)/100)) ∧
      (∃ a b : ℚ, ∀ x : ℚ, Poly.eval s.V_expr x = a + b * x) ∧
      (∃ c₁ c₂ : ℚ, ∀ x : ℚ, Poly.eval s.M_expanded x = c₁ * x + c₂ * x^2) ∧
      (∃ c₁ c₂ : ℚ, ∀ x : ℚ, Poly.eval s.M_factored x = c₁ * x + c₂ * x^2) := by
  intro s hs
  rw [resolver_ok Ha Hd Pbc L_bc h_cd h] at hs
  injection hs with hs'
  subst hs'
  refine ⟨⟨⟨roundHalfEven (100 * (Ha - Hd)), rfl⟩,
          ⟨roundHalfEven (100 * VbExact Hd Pbc L_bc h_cd), rfl⟩,
          ⟨roundHalfEven (100 * (-Pbc * L_bc - VbExact Hd Pbc L_bc h_cd)), rfl⟩,
          ⟨roundHalfEven (100 * Ha), rfl⟩⟩,
        ⟨VbExact Hd Pbc L_bc h_cd, Pbc, ?_⟩,
        ⟨VbExact Hd Pbc L_bc h_cd, Pbc/2, ?_⟩,
        ⟨VbExact Hd Pbc L_bc h_cd, Pbc/2, ?_⟩⟩ <;>
    · intro x
      norm_num [Poly.eval_cons, Poly.eval_nil]
      ring

/-- Witness for C8 at the reference scenario. -/
theorem c8_output_shape_witness :
    ((∃ k : ℤ, saida_ref.Hc = (k : ℚ)/100) ∧ (∃ k : ℤ, saida_ref.Vb = (k : ℚ)/100) ∧
     (∃ k : ℤ, saida_ref.Vc = (k : ℚ)/100) ∧ (∃ k : ℤ, saida_ref.N = (k : ℚ)/100)) ∧
    (∃ a b : ℚ, ∀ x : ℚ, Poly.eval saida_ref.V_expr x = a + b * x) ∧
    (∃ c₁ c₂ : ℚ, ∀ x : ℚ, Poly.eval saida_ref.M_expanded x = c₁ * x + c₂ * x^2) ∧
    (∃ c₁ c₂ : ℚ, ∀ x : ℚ, Poly.eval saida_ref.M_factored x = c₁ * x + c₂ * x^2) :=
  c8_output_shape 1 3 (-2) 3 1 (by norm_num) saida_ref resolver_ref

/-- C9: the solver is a pure function, hence deterministic: two calls with
identical arguments return identical results. -/
theorem c9_deterministic (Ha Hd Pbc L_bc h_cd : ℚ) :
    resolver_estrutura Ha Hd Pbc L_bc h_cd = resolver_estrutura Ha Hd Pbc L_bc h_cd :=
  rfl

/-- C10: the factored and the expanded moment expressions are symbolically
equal (pointwise equal as functions), and both are the zero-based integral
of the shear: they vanish at `0` and differentiate back to `V`. -/
theorem c10_factored_eq_expanded (Ha Hd Pbc L_bc h_cd : ℚ) (h : L_bc ≠ 0) :
    ∀ s : Saida, resolver_estrutura Ha Hd Pbc L_bc h_cd = Except.ok s →
      s.M_factored = s.M_expanded ∧
      (∀ x : ℚ, Poly.eval s.M_factored x = Poly.eval s.M_expanded x) ∧
      Poly.eval s.M_factored 0 = 0 ∧ Poly.deriv s.M_factored = s.V_expr := by
  intro s hs
  rw [resolver_ok Ha Hd Pbc L_bc h_cd h] at hs
  injection hs with hs'
  subst hs'
  refine ⟨rfl, fun x => rfl, by norm_num [Poly.eval_cons, Poly.eval_nil], ?_⟩
  norm_num [Poly.deriv, Poly.derivAux]
  ring

/-- Witness for C10 at the reference scenario. -/
theorem c10_factored_eq_expanded_witness :
    saida_ref.M_factored = saida_ref.M_expanded ∧
    (∀ x : ℚ, Poly.eval saida_ref.M_factored x = Poly.eval saida_ref.M_expanded x) ∧
    Poly.eval saida_ref.M_factored 0 = 0 ∧
    Poly.deriv saida_ref.M_factored = saida_ref.V_expr :=
  c10_factored_eq_expanded 1 3 (-2) 3 1 (by norm_num) saida_ref resolver_ref

end R0
